import Mathlib

/-!
Shallow embedding of `PreProc/inputdata/atm/cam/ggas/create_TIPMIP_emission_file.py`.

The script computes a globally uniform CO2 emission rate from the TCRE
constant, fills monthly time bounds, midpoint times, packed date codes and a
spatially uniform flux array over a 250-year, 96x144 grid via a double loop,
and writes the result into a sliced copy of a template dataset.  Real-valued
arithmetic is modelled over the rationals; the sum of the grid-cell areas
(read from an external NetCDF file) is a parameter `totarea`.
-/

namespace TIPMIP

/-- TCRE = 1.32, degrees C per EgC (Arora et al., 2020). -/
def TCRE : ℚ := 1.32

/-- E = 1000 * 0.02 / TCRE, in GtC per year. -/
def E : ℚ := 1000 * 0.02 / TCRE

/-- Edata = np.ones((250*12, 1)) * E, viewed as the function giving the entry
at a (valid) index: every entry is E. -/
def Edata : ℕ → ℚ := fun _ => E

def nyears : ℕ := 250

def nmonth : ℕ := nyears * 12

def nlon : ℕ := 144

def nlat : ℕ := 96

def start_year : ℕ := 1

/-- dayim = [31, 28, 31, 30, 31, 30, 31, 31, 30, 31, 30, 31]: days per month
of the 365-day no-leap calendar. -/
def dayim : List ℕ := [31, 28, 31, 30, 31, 30, 31, 31, 30, 31, 30, 31]

/-- Inclusive running sums, as np.cumsum. -/
def cumsum : List ℕ → List ℕ
  | [] => []
  | x :: xs => x :: (cumsum xs).map (x + ·)

/-- days = np.cumsum([0] + dayim[:-1]) + 1: the first day of each month. -/
def days : List ℕ := (cumsum ([0] ++ dayim.dropLast)).map (· + 1)

/-- daye = np.cumsum(dayim): the last day of each month. -/
def daye : List ℕ := cumsum dayim

/-- date_mint = [116, 215, ..., 1216]: assumed mid-month MMDD codes. -/
def date_mint : List ℕ := [116, 215, 316, 416, 516, 616, 716, 816, 916, 1016, 1116, 1216]

/-- The arrays filled by the script, modelled as total functions on the
timestep index (the script allocates nmonth = 3000 entries; only indices
below nmonth are meaningful).  co2flx additionally takes the latitude and
longitude indices. -/
structure St where
  time_bnds : ℕ → ℚ × ℚ
  time : ℕ → ℚ
  date : ℕ → ℤ
  co2flx : ℕ → ℕ → ℕ → ℚ

/-- All arrays allocated with np.zeros. -/
def initSt : St := ⟨fun _ => (0, 0), fun _ => 0, fun _ => 0, fun _ _ _ => 0⟩

/-- time_bnds[0, idx] = 365 * (iy - 1) + days[im - 1] - 1. -/
def tb0val (iy im : ℕ) : ℚ := 365 * ((iy : ℚ) - 1) + (days.getD (im - 1) 0 : ℚ) - 1

/-- time_bnds[1, idx] = 365 * (iy - 1) + daye[im - 1]. -/
def tb1val (iy im : ℕ) : ℚ := 365 * ((iy : ℚ) - 1) + (daye.getD (im - 1) 0 : ℚ)

/-- time[idx] = np.sum(time_bnds[:, idx]) / 2.0, reading the bounds just
assigned for this idx. -/
def timeval (iy im : ℕ) : ℚ := (tb0val iy im + tb1val iy im) / 2

/-- date[idx] = (1850 + (iy - 1)) * 10000 + date_mint[im - 1]. -/
def dateval (iy im : ℕ) : ℤ := (1850 + ((iy : ℤ) - 1)) * 10000 + (date_mint.getD (im - 1) 0 : ℤ)

/-- The value assigned to co2flx[idx, :, :]: when start_year <= iy <
start_year + 250, Edata[idx - (start_year-1)*12] * 1e12 * 3.664 / dt /
totarea / 12 with dt = (time_bnds[1,idx] - time_bnds[0,idx]) * 86400.0 the
just-assigned bounds, else 0.0. -/
def flxval (totarea : ℚ) (iy im : ℕ) : ℚ :=
  if start_year ≤ iy ∧ iy < start_year + 250 then
    Edata ((iy - 1) * 12 + im - 1 - (start_year - 1) * 12) * 1e12 * 3.664 /
      ((tb1val iy im - tb0val iy im) * 86400) / totarea / 12
  else 0

/-- The body of the double loop for year iy and month im (both 1-based),
writing index idx = (iy - 1) * 12 + im - 1 of each array. -/
def body (totarea : ℚ) (s : St) (iy im : ℕ) : St :=
  { time_bnds := Function.update s.time_bnds ((iy - 1) * 12 + im - 1) (tb0val iy im, tb1val iy im)
    time := Function.update s.time ((iy - 1) * 12 + im - 1) (timeval iy im)
    date := Function.update s.date ((iy - 1) * 12 + im - 1) (dateval iy im)
    co2flx := fun i la lo =>
      if i = (iy - 1) * 12 + im - 1 then flxval totarea iy im else s.co2flx i la lo }

/-- The double loop: for iy in range(1, nyears + 1): for im in range(1, 13). -/
def runLoop (totarea : ℚ) : St :=
  (List.range nyears).foldl
    (fun s iy0 => (List.range 12).foldl (fun s im0 => body totarea s (iy0 + 1) (im0 + 1)) s)
    initSt

/-- The loop body re-indexed by the flat timestep index j = (iy-1)*12 + (im-1). -/
def step (totarea : ℚ) (s : St) (j : ℕ) : St := body totarea s (j / 12 + 1) (j % 12 + 1)

/-- Shape of co2flx = np.zeros((nmonth, nlat, nlon)). -/
def co2flx_shape : ℕ × ℕ × ℕ := (nmonth, nlat, nlon)

/-- Modelled from the spec: the template emission file (an external data
input, not code of this repository) has its CO2_flux variable on the
fv 1.9x2.5 grid (96 latitudes, 144 longitudes) with monthly timesteps from
175001 through 201512, i.e. 266 * 12 = 3192 of them, as encoded in the file
name the script opens. -/
def template_CO2_flux_shape : ℕ × ℕ × ℕ := (3192, 96, 144)

/-- Shape of a 3-D variable after dataset.isel(time=slice(start, stop)):
python slice semantics clamp both ends to the axis length. -/
def isel_time_slice (shape : ℕ × ℕ × ℕ) (start stop : ℕ) : ℕ × ℕ × ℕ :=
  (min stop shape.1 - min start shape.1, shape.2.1, shape.2.2)

/-- Failure points of the script, in the order they can occur. -/
inductive ScriptError
  | missingAreaFile
  | missingTemplateFile
  | shapeMismatch
  | ioWriteError

/-- Which of the script steps executed to completion. -/
structure ScriptTrace where
  loadedArea : Bool
  loadedTemplate : Bool
  assignedFlux : Bool
  wroteOutput : Bool

/-- The script as a straight-line fallible pipeline: load the area file, load
the template file, slice and assign the flux (which requires the computed
shape to match the sliced template), write the output.  There is no
try/except in the source, so each failure aborts the run and no later step
executes. -/
def runScript (areaOk templateOk : Bool) (templateShape : ℕ × ℕ × ℕ) (writeOk : Bool) :
    ScriptTrace × Except ScriptError Unit :=
  if areaOk = false then (⟨false, false, false, false⟩, .error .missingAreaFile)
  else if templateOk = false then (⟨true, false, false, false⟩, .error .missingTemplateFile)
  else if isel_time_slice templateShape 0 3000 ≠ co2flx_shape then
    (⟨true, true, false, false⟩, .error .shapeMismatch)
  else if writeOk = false then (⟨true, true, true, false⟩, .error .ioWriteError)
  else (⟨true, true, true, true⟩, .ok ())

lemma step_apply_ne (totarea : ℚ) (s : St) (j k : ℕ) (hk : k ≠ j) :
    (step totarea s j).time_bnds k = s.time_bnds k ∧
    (step totarea s j).time k = s.time k ∧
    (step totarea s j).date k = s.date k ∧
    ∀ la lo, (step totarea s j).co2flx k la lo = s.co2flx k la lo := by
  have hidx : (j / 12 + 1 - 1) * 12 + (j % 12 + 1) - 1 = j := by omega
  have hidx2 : j / 12 * 12 + j % 12 = j := by omega
  refine ⟨?_, ?_, ?_, fun la lo => ?_⟩ <;>
    simp [step, body, hidx, hidx2, Function.update_noteq hk, hk]

lemma step_apply_self (totarea : ℚ) (s : St) (j : ℕ) :
    (step totarea s j).time_bnds j =
      (tb0val (j / 12 + 1) (j % 12 + 1), tb1val (j / 12 + 1) (j % 12 + 1)) ∧
    (step totarea s j).time j = timeval (j / 12 + 1) (j % 12 + 1) ∧
    (step totarea s j).date j = dateval (j / 12 + 1) (j % 12 + 1) ∧
    ∀ la lo, (step totarea s j).co2flx j la lo = flxval totarea (j / 12 + 1) (j % 12 + 1) := by
  have hidx : (j / 12 + 1 - 1) * 12 + (j % 12 + 1) - 1 = j := by omega
  have hidx2 : j / 12 * 12 + j % 12 = j := by omega
  refine ⟨?_, ?_, ?_, fun la lo => ?_⟩ <;>
    simp [step, body, hidx, hidx2, Function.update_same]

lemma foldl_step_notMem (totarea : ℚ) (l : List ℕ) (s : St) (k : ℕ) (h : k ∉ l) :
    (l.foldl (step totarea) s).time_bnds k = s.time_bnds k ∧
    (l.foldl (step totarea) s).time k = s.time k ∧
    (l.foldl (step totarea) s).date k = s.date k ∧
    ∀ la lo, (l.foldl (step totarea) s).co2flx k la lo = s.co2flx k la lo := by
  induction l generalizing s with
  | nil => exact ⟨rfl, rfl, rfl, fun _ _ => rfl⟩
  | cons j rest ih =>
    have hkj : k ≠ j := fun hh => h (hh ▸ List.mem_cons_self j rest)
    have hrest : k ∉ rest := fun hh => h (List.mem_cons_of_mem j hh)
    obtain ⟨a1, a2, a3, a4⟩ := ih (step totarea s j) hrest
    obtain ⟨b1, b2, b3, b4⟩ := step_apply_ne totarea s j k hkj
    refine ⟨?_, ?_, ?_, fun la lo => ?_⟩
    · rw [List.foldl_cons, a1, b1]
    · rw [List.foldl_cons, a2, b2]
    · rw [List.foldl_cons, a3, b3]
    · rw [List.foldl_cons, a4 la lo, b4 la lo]

lemma nested_eq_flat (totarea : ℚ) : ∀ (k : ℕ) (s : St),
    (List.range k).foldl
      (fun s iy0 => (List.range 12).foldl (fun s im0 => body totarea s (iy0 + 1) (im0 + 1)) s) s
    = (List.range (k * 12)).foldl (step totarea) s := by
  intro k
  induction k with
  | zero => intro s; rfl
  | succ n ih =>
    intro s
    rw [List.range_succ n, List.foldl_append, ih]
    simp only [List.foldl_cons, List.foldl_nil]
    have h12 : (n + 1) * 12 = n * 12 + 12 := by ring
    rw [h12, List.range_add, List.foldl_append, List.foldl_map]
    refine List.foldl_ext _ _ _ fun s2 j hj => ?_
    have hj12 : j < 12 := List.mem_range.mp hj
    have hd : (n * 12 + j) / 12 + 1 = n + 1 := by omega
    have hm : (n * 12 + j) % 12 + 1 = j + 1 := by omega
    simp only [step, hd, hm]

lemma runLoop_eq_foldl (totarea : ℚ) :
    runLoop totarea = (List.range (nyears * 12)).foldl (step totarea) initSt :=
  nested_eq_flat totarea nyears initSt

lemma runLoop_apply (totarea : ℚ) (idx : ℕ) (h : idx < nyears * 12) :
    (runLoop totarea).time_bnds idx =
      (tb0val (idx / 12 + 1) (idx % 12 + 1), tb1val (idx / 12 + 1) (idx % 12 + 1)) ∧
    (runLoop totarea).time idx = timeval (idx / 12 + 1) (idx % 12 + 1) ∧
    (runLoop totarea).date idx = dateval (idx / 12 + 1) (idx % 12 + 1) ∧
    ∀ la lo, (runLoop totarea).co2flx idx la lo = flxval totarea (idx / 12 + 1) (idx % 12 + 1) := by
  have hr : List.range (nyears * 12) =
      List.range (idx + 1) ++ (List.range (nyears * 12 - (idx + 1))).map (fun x => idx + 1 + x) := by
    rw [← List.range_add]
    congr 1
    omega
  have hform : runLoop totarea =
      ((List.range (nyears * 12 - (idx + 1))).map (fun x => idx + 1 + x)).foldl (step totarea)
        (step totarea ((List.range idx).foldl (step totarea) initSt) idx) := by
    rw [runLoop_eq_foldl, hr, List.foldl_append, List.range_succ idx, List.foldl_append,
      List.foldl_cons, List.foldl_nil]
  have htail : idx ∉ (List.range (nyears * 12 - (idx + 1))).map (fun x => idx + 1 + x) := by
    intro hmem
    obtain ⟨i, hi, hval⟩ := List.mem_map.mp hmem
    omega
  obtain ⟨f1, f2, f3, f4⟩ := foldl_step_notMem totarea _
    (step totarea ((List.range idx).foldl (step totarea) initSt) idx) idx htail
  obtain ⟨w1, w2, w3, w4⟩ := step_apply_self totarea ((List.range idx).foldl (step totarea) initSt) idx
  rw [hform]
  exact ⟨f1.trans w1, f2.trans w2, f3.trans w3, fun la lo => (f4 la lo).trans (w4 la lo)⟩

lemma days_getD_eq (im : ℕ) (h1 : 1 ≤ im) (h2 : im ≤ 12) :
    days.getD (im - 1) 0 = (dayim.take (im - 1)).sum + 1 := by
  interval_cases im <;> decide

lemma daye_getD_eq (im : ℕ) (h1 : 1 ≤ im) (h2 : im ≤ 12) :
    daye.getD (im - 1) 0 = (dayim.take im).sum := by
  interval_cases im <;> decide

lemma daye_days_dayim (im : ℕ) (h1 : 1 ≤ im) (h2 : im ≤ 12) :
    daye.getD (im - 1) 0 + 1 = days.getD (im - 1) 0 + dayim.getD (im - 1) 0 := by
  interval_cases im <;> decide

lemma dayim_pos (im : ℕ) (h1 : 1 ≤ im) (h2 : im ≤ 12) : 0 < dayim.getD (im - 1) 0 := by
  interval_cases im <;> decide

lemma tb_sub (iy im : ℕ) (h1 : 1 ≤ im) (h2 : im ≤ 12) :
    tb1val iy im - tb0val iy im = (dayim.getD (im - 1) 0 : ℚ) := by
  have h := daye_days_dayim im h1 h2
  have hq : (daye.getD (im - 1) 0 : ℚ) + 1 =
      (days.getD (im - 1) 0 : ℚ) + (dayim.getD (im - 1) 0 : ℚ) := by exact_mod_cast h
  simp only [tb0val, tb1val]
  linarith

lemma nyears_mul : nyears * 12 = 3000 := rfl

lemma co2flx_closed (totarea : ℚ) (iy im la lo : ℕ)
    (hy1 : 1 ≤ iy) (hy2 : iy ≤ 250) (hm1 : 1 ≤ im) (hm2 : im ≤ 12) :
    (runLoop totarea).co2flx ((iy - 1) * 12 + im - 1) la lo =
      E * 1e12 * 3.664 / ((dayim.getD (im - 1) 0 : ℚ) * 86400) / totarea / 12 := by
  have hlt : (iy - 1) * 12 + im - 1 < nyears * 12 := by
    have h3000 := nyears_mul
    omega
  obtain ⟨-, -, -, h4⟩ := runLoop_apply totarea ((iy - 1) * 12 + im - 1) hlt
  have hdiv : ((iy - 1) * 12 + im - 1) / 12 + 1 = iy := by omega
  have hmod : ((iy - 1) * 12 + im - 1) % 12 + 1 = im := by omega
  rw [hdiv, hmod] at h4
  rw [h4 la lo]
  have hs : start_year = 1 := rfl
  have hcond : start_year ≤ iy ∧ iy < start_year + 250 := by omega
  simp only [flxval, if_pos hcond]
  rw [tb_sub iy im hm1 hm2]
  simp only [Edata]

lemma tbval_lt (iy im : ℕ) (h1 : 1 ≤ im) (h2 : im ≤ 12) : tb0val iy im < tb1val iy im := by
  have hs := tb_sub iy im h1 h2
  have hp : (0 : ℚ) < (dayim.getD (im - 1) 0 : ℚ) := by exact_mod_cast dayim_pos im h1 h2
  linarith

lemma tb_adjacent_val (idx : ℕ) :
    tb1val (idx / 12 + 1) (idx % 12 + 1) = tb0val ((idx + 1) / 12 + 1) ((idx + 1) % 12 + 1) := by
  by_cases hm : idx % 12 = 11
  · have hd : (idx + 1) / 12 = idx / 12 + 1 := by omega
    have hm2 : (idx + 1) % 12 = 0 := by omega
    rw [hd, hm2, hm]
    simp only [tb0val, tb1val, Nat.add_sub_cancel]
    rw [show daye.getD 11 0 = 365 from by decide, show days.getD 0 0 = 1 from by decide]
    push_cast
    ring
  · have hd : (idx + 1) / 12 = idx / 12 := by omega
    have hm2 : (idx + 1) % 12 = idx % 12 + 1 := by omega
    rw [hd, hm2]
    simp only [tb0val, tb1val, Nat.add_sub_cancel]
    have hgen : ∀ m, m < 11 → daye.getD m 0 + 1 = days.getD (m + 1) 0 := by
      intro m hmlt
      interval_cases m <;> decide
    have key : (daye.getD (idx % 12) 0 : ℚ) + 1 = (days.getD (idx % 12 + 1) 0 : ℚ) := by
      exact_mod_cast hgen (idx % 12) (by omega)
    linarith

lemma timeval_adjacent_lt (idx : ℕ) :
    timeval (idx / 12 + 1) (idx % 12 + 1) < timeval ((idx + 1) / 12 + 1) ((idx + 1) % 12 + 1) := by
  have l1 := tbval_lt (idx / 12 + 1) (idx % 12 + 1) (by omega) (by omega)
  have l2 := tbval_lt ((idx + 1) / 12 + 1) ((idx + 1) % 12 + 1) (by omega) (by omega)
  have adj := tb_adjacent_val idx
  simp only [timeval] at *
  linarith

lemma time_strict_mono (totarea : ℚ) : ∀ i j : ℕ, i < j → j < 3000 →
    (runLoop totarea).time i < (runLoop totarea).time j := by
  intro i j hij hj
  induction j with
  | zero => omega
  | succ n ih =>
    have h3000 := nyears_mul
    obtain ⟨-, hn1, -, -⟩ := runLoop_apply totarea n (by omega)
    obtain ⟨-, hn2, -, -⟩ := runLoop_apply totarea (n + 1) (by omega)
    have stepn : (runLoop totarea).time n < (runLoop totarea).time (n + 1) := by
      rw [hn1, hn2]
      exact timeval_adjacent_lt n
    rcases Nat.lt_succ_iff_lt_or_eq.mp hij with hlt | heq
    · exact lt_trans (ih hlt (by omega)) stepn
    · rw [heq]
      exact stepn

/-- C1: for every year iy in [1,250] and month im in [1,12], every
latitude/longitude entry of co2flx at timestep idx = (iy-1)*12 + im - 1
equals the globally uniform rate E = 1000 * 0.02 / 1.32 GtC per year
converted by the chain E * 1e12 * 3.664 / (dayim[im-1] * 86400) / totarea
/ 12, where dayim[im-1] is the length of month im in the 365-day calendar
and totarea is the sum of the grid-cell-area field. -/
theorem C1_uniform_emission_rate (totarea : ℚ) (iy im la lo : ℕ)
    (hy1 : 1 ≤ iy) (hy2 : iy ≤ 250) (hm1 : 1 ≤ im) (hm2 : im ≤ 12)
    (hla : la < nlat) (hlo : lo < nlon) :
    E = 1000 * 0.02 / 1.32 ∧
    (runLoop totarea).co2flx ((iy - 1) * 12 + im - 1) la lo =
      E * 1e12 * 3.664 / ((dayim.getD (im - 1) 0 : ℚ) * 86400) / totarea / 12 :=
  ⟨rfl, co2flx_closed totarea iy im la lo hy1 hy2 hm1 hm2⟩

/-- Witness for C1 at totarea = 1, iy = im = 1, grid cell (0, 0). -/
theorem C1_uniform_emission_rate_witness :
    E = 1000 * 0.02 / 1.32 ∧
    (runLoop 1).co2flx ((1 - 1) * 12 + 1 - 1) 0 0 =
      E * 1e12 * 3.664 / ((dayim.getD (1 - 1) 0 : ℚ) * 86400) / 1 / 12 :=
  C1_uniform_emission_rate 1 1 1 0 0 (by decide) (by decide) (by decide) (by decide)
    (by decide) (by decide)

/-- C2: for every timestep idx in [0, 3000) the flux field is spatially
uniform (any two grid entries agree), and the value the loop body assigns
for a year iy outside [start_year, start_year + 250) is zero. -/
theorem C2_uniform_and_zero_outside (totarea : ℚ) (idx la1 lo1 la2 lo2 : ℕ)
    (h : idx < 3000) (ha1 : la1 < nlat) (ho1 : lo1 < nlon)
    (ha2 : la2 < nlat) (ho2 : lo2 < nlon) :
    (runLoop totarea).co2flx idx la1 lo1 = (runLoop totarea).co2flx idx la2 lo2 ∧
    ∀ iy im : ℕ, ¬ (start_year ≤ iy ∧ iy < start_year + 250) → flxval totarea iy im = 0 := by
  constructor
  · have h3000 := nyears_mul
    obtain ⟨-, -, -, h4⟩ := runLoop_apply totarea idx (by omega)
    rw [h4 la1 lo1, h4 la2 lo2]
  · intro iy im hcond
    simp only [flxval, if_neg hcond]

/-- Witness for C2 at totarea = 1, idx = 0, cells (0,0) and (95,143). -/
theorem C2_uniform_and_zero_outside_witness :
    (runLoop 1).co2flx 0 0 0 = (runLoop 1).co2flx 0 95 143 ∧
    ∀ iy im : ℕ, ¬ (start_year ≤ iy ∧ iy < start_year + 250) → flxval 1 iy im = 0 :=
  C2_uniform_and_zero_outside 1 0 0 0 95 143 (by decide) (by decide) (by decide)
    (by decide) (by decide)

/-- C3: for every year iy in [1,250] and month im in [1,12], at
idx = (iy-1)*12 + im - 1 the lower time bound is 365*(iy-1) plus the days
of the months before im, the upper bound is 365*(iy-1) plus the days
through month im, and their difference is the length of month im. -/
theorem C3_time_bounds (totarea : ℚ) (iy im : ℕ)
    (hy1 : 1 ≤ iy) (hy2 : iy ≤ 250) (hm1 : 1 ≤ im) (hm2 : im ≤ 12) :
    ((runLoop totarea).time_bnds ((iy - 1) * 12 + im - 1)).1 =
      365 * ((iy : ℚ) - 1) + ((dayim.take (im - 1)).sum : ℚ) ∧
    ((runLoop totarea).time_bnds ((iy - 1) * 12 + im - 1)).2 =
      365 * ((iy : ℚ) - 1) + ((dayim.take im).sum : ℚ) ∧
    ((runLoop totarea).time_bnds ((iy - 1) * 12 + im - 1)).2 -
        ((runLoop totarea).time_bnds ((iy - 1) * 12 + im - 1)).1 =
      (dayim.getD (im - 1) 0 : ℚ) := by
  have h3000 := nyears_mul
  have hlt : (iy - 1) * 12 + im - 1 < nyears * 12 := by omega
  obtain ⟨h1, -, -, -⟩ := runLoop_apply totarea ((iy - 1) * 12 + im - 1) hlt
  have hdiv : ((iy - 1) * 12 + im - 1) / 12 + 1 = iy := by omega
  have hmod : ((iy - 1) * 12 + im - 1) % 12 + 1 = im := by omega
  rw [hdiv, hmod] at h1
  have hdays : (days.getD (im - 1) 0 : ℚ) = ((dayim.take (im - 1)).sum : ℚ) + 1 := by
    exact_mod_cast days_getD_eq im hm1 hm2
  have hdaye : (daye.getD (im - 1) 0 : ℚ) = ((dayim.take im).sum : ℚ) := by
    exact_mod_cast daye_getD_eq im hm1 hm2
  refine ⟨?_, ?_, ?_⟩
  · rw [h1]
    show tb0val iy im = 365 * ((iy : ℚ) - 1) + ((dayim.take (im - 1)).sum : ℚ)
    simp only [tb0val]
    rw [hdays]
    ring
  · rw [h1]
    show tb1val iy im = 365 * ((iy : ℚ) - 1) + ((dayim.take im).sum : ℚ)
    simp only [tb1val]
    rw [hdaye]
  · rw [h1]
    show tb1val iy im - tb0val iy im = (dayim.getD (im - 1) 0 : ℚ)
    exact tb_sub iy im hm1 hm2

/-- Witness for C3 at totarea = 1, iy = 1, im = 1. -/
theorem C3_time_bounds_witness :
    ((runLoop 1).time_bnds 0).1 = 365 * ((1 : ℚ) - 1) + ((dayim.take 0).sum : ℚ) ∧
    ((runLoop 1).time_bnds 0).2 = 365 * ((1 : ℚ) - 1) + ((dayim.take 1).sum : ℚ) ∧
    ((runLoop 1).time_bnds 0).2 - ((runLoop 1).time_bnds 0).1 = (dayim.getD 0 0 : ℚ) :=
  C3_time_bounds 1 1 1 (by decide) (by decide) (by decide) (by decide)

/-- C4: for every year iy in [1,250] and month im in [1,12], the packed date
code at idx = (iy-1)*12 + im - 1 equals (1850 + iy - 1) * 10000 +
date_mint[im - 1], and the year part 1850 + (iy - 1) lies in [1850, 2099]. -/
theorem C4_date_code (totarea : ℚ) (iy im : ℕ)
    (hy1 : 1 ≤ iy) (hy2 : iy ≤ 250) (hm1 : 1 ≤ im) (hm2 : im ≤ 12) :
    (runLoop totarea).date ((iy - 1) * 12 + im - 1) =
      (1850 + ((iy : ℤ) - 1)) * 10000 + (date_mint.getD (im - 1) 0 : ℤ) ∧
    1850 ≤ 1850 + ((iy : ℤ) - 1) ∧ 1850 + ((iy : ℤ) - 1) ≤ 2099 := by
  have h3000 := nyears_mul
  have hlt : (iy - 1) * 12 + im - 1 < nyears * 12 := by omega
  obtain ⟨-, -, h3, -⟩ := runLoop_apply totarea ((iy - 1) * 12 + im - 1) hlt
  have hdiv : ((iy - 1) * 12 + im - 1) / 12 + 1 = iy := by omega
  have hmod : ((iy - 1) * 12 + im - 1) % 12 + 1 = im := by omega
  rw [hdiv, hmod] at h3
  have hz1 : (1 : ℤ) ≤ (iy : ℤ) := by exact_mod_cast hy1
  have hz2 : (iy : ℤ) ≤ 250 := by exact_mod_cast hy2
  exact ⟨h3, by linarith, by linarith⟩

/-- Witness for C4 at totarea = 1, iy = 250, im = 12. -/
theorem C4_date_code_witness :
    (runLoop 1).date ((250 - 1) * 12 + 12 - 1) =
      (1850 + ((250 : ℤ) - 1)) * 10000 + (date_mint.getD (12 - 1) 0 : ℤ) ∧
    1850 ≤ 1850 + ((250 : ℤ) - 1) ∧ 1850 + ((250 : ℤ) - 1) ≤ 2099 :=
  C4_date_code 1 250 12 (by decide) (by decide) (by decide) (by decide)

/-- C5: the computed co2flx array has shape (3000, 96, 144), which equals the
shape of the template's CO2_flux variable after the time axis is sliced to
its first 3000 entries, so the output dimensions match the template grid. -/
theorem C5_shapes_match :
    isel_time_slice template_CO2_flux_shape 0 3000 = co2flx_shape ∧
    co2flx_shape = (3000, 96, 144) := by
  constructor <;> rfl

/-- C6: for every timestep idx in [0, 3000), the midpoint time equals the
average of the two time bounds at that index. -/
theorem C6_midpoint_time (totarea : ℚ) (idx : ℕ) (h : idx < 3000) :
    (runLoop totarea).time idx =
      (((runLoop totarea).time_bnds idx).1 + ((runLoop totarea).time_bnds idx).2) / 2 := by
  have h3000 := nyears_mul
  obtain ⟨h1, h2, -, -⟩ := runLoop_apply totarea idx (by omega)
  rw [h1, h2]
  rfl

/-- Witness for C6 at totarea = 1, idx = 0. -/
theorem C6_midpoint_time_witness :
    (runLoop 1).time 0 = (((runLoop 1).time_bnds 0).1 + ((runLoop 1).time_bnds 0).2) / 2 :=
  C6_midpoint_time 1 0 (by decide)

/-- C7: the script is a straight-line pipeline with no error handling: each
step runs only if every earlier step succeeded, the run succeeds exactly
when every step succeeds, and any failure (missing area file, missing
template file, shape mismatch on the flux assignment, I/O error on write)
surfaces as the corresponding uncaught error with no later step (in
particular the output write) executed. -/
theorem C7_no_error_handling (areaOk templateOk writeOk : Bool) (sh : ℕ × ℕ × ℕ) :
    ((runScript areaOk templateOk sh writeOk).2 = Except.ok () ↔
      areaOk = true ∧ templateOk = true ∧
        isel_time_slice sh 0 3000 = co2flx_shape ∧ writeOk = true) ∧
    ((runScript areaOk templateOk sh writeOk).1.wroteOutput = true ↔
      areaOk = true ∧ templateOk = true ∧
        isel_time_slice sh 0 3000 = co2flx_shape ∧ writeOk = true) ∧
    ((runScript areaOk templateOk sh writeOk).1.assignedFlux = true ↔
      areaOk = true ∧ templateOk = true ∧ isel_time_slice sh 0 3000 = co2flx_shape) ∧
    ((runScript areaOk templateOk sh writeOk).1.loadedTemplate = true ↔
      areaOk = true ∧ templateOk = true) ∧
    (runScript areaOk templateOk sh writeOk).1.loadedArea = areaOk := by
  cases areaOk <;> cases templateOk <;> cases writeOk <;>
    by_cases hsh : isel_time_slice sh 0 3000 = co2flx_shape <;>
    simp [runScript, hsh]

/-- C8: the monthly time bounds partition the axis: each interval is
nonempty, consecutive intervals abut, and the midpoint times are strictly
increasing over the 3000 timesteps. -/
theorem C8_partition (totarea : ℚ) (idx : ℕ) :
    (idx < 3000 → ((runLoop totarea).time_bnds idx).1 < ((runLoop totarea).time_bnds idx).2) ∧
    (idx + 1 < 3000 →
      ((runLoop totarea).time_bnds idx).2 = ((runLoop totarea).time_bnds (idx + 1)).1) ∧
    ∀ j : ℕ, idx < j → j < 3000 → (runLoop totarea).time idx < (runLoop totarea).time j := by
  have h3000 := nyears_mul
  refine ⟨fun h => ?_, fun h => ?_, fun j h1 h2 => time_strict_mono totarea idx j h1 h2⟩
  · obtain ⟨hb, -, -, -⟩ := runLoop_apply totarea idx (by omega)
    rw [hb]
    exact tbval_lt _ _ (by omega) (by omega)
  · obtain ⟨hb1, -, -, -⟩ := runLoop_apply totarea idx (by omega)
    obtain ⟨hb2, -, -, -⟩ := runLoop_apply totarea (idx + 1) (by omega)
    rw [hb1, hb2]
    exact tb_adjacent_val idx

/-- Witness for C8 at totarea = 1, idx = 0, j = 1. -/
theorem C8_partition_witness :
    ((runLoop 1).time_bnds 0).1 < ((runLoop 1).time_bnds 0).2 ∧
    ((runLoop 1).time_bnds 0).2 = ((runLoop 1).time_bnds 1).1 ∧
    (runLoop 1).time 0 < (runLoop 1).time 1 :=
  ⟨(C8_partition 1 0).1 (by decide), (C8_partition 1 0).2.1 (by decide),
    (C8_partition 1 0).2.2 1 (by decide) (by decide)⟩

/-- C9: for every year iy in [1,250] and any grid cell, the sum over the 12
months of flux * totarea * month-length-in-seconds recovers the full annual
budget E * 1e12 * 3.664 (E GtC converted to kg CO2), provided totarea is
nonzero. -/
theorem C9_annual_budget (totarea : ℚ) (iy la lo : ℕ) (ht : totarea ≠ 0)
    (hy1 : 1 ≤ iy) (hy2 : iy ≤ 250) (hla : la < nlat) (hlo : lo < nlon) :
    ∑ im ∈ Finset.Icc 1 12,
        (runLoop totarea).co2flx ((iy - 1) * 12 + im - 1) la lo * totarea *
          ((dayim.getD (im - 1) 0 : ℚ) * 86400) =
      E * 1e12 * 3.664 := by
  have hterm : ∀ im ∈ Finset.Icc 1 12,
      (runLoop totarea).co2flx ((iy - 1) * 12 + im - 1) la lo * totarea *
        ((dayim.getD (im - 1) 0 : ℚ) * 86400) = E * 1e12 * 3.664 / 12 := by
    intro im hmem
    obtain ⟨hm1, hm2⟩ := Finset.mem_Icc.mp hmem
    rw [co2flx_closed totarea iy im la lo hy1 hy2 hm1 hm2]
    have hd0 : (dayim.getD (im - 1) 0 : ℚ) ≠ 0 := by
      have hp : (0 : ℚ) < (dayim.getD (im - 1) 0 : ℚ) := by
        exact_mod_cast dayim_pos im hm1 hm2
      exact ne_of_gt hp
    have hX : (dayim.getD (im - 1) 0 : ℚ) * 86400 ≠ 0 := mul_ne_zero hd0 (by norm_num)
    calc E * 1e12 * 3.664 / ((dayim.getD (im - 1) 0 : ℚ) * 86400) / totarea / 12 * totarea *
          ((dayim.getD (im - 1) 0 : ℚ) * 86400)
        = E * 1e12 * 3.664 / 12 * (totarea / totarea) *
            (((dayim.getD (im - 1) 0 : ℚ) * 86400) / ((dayim.getD (im - 1) 0 : ℚ) * 86400)) := by
          ring
      _ = E * 1e12 * 3.664 / 12 := by rw [div_self ht, div_self hX, mul_one, mul_one]
  rw [Finset.sum_congr rfl hterm, Finset.sum_const, Nat.card_Icc]
  simp only [nsmul_eq_mul]
  ring

/-- Witness for C9 at totarea = 1, iy = 1, grid cell (0, 0). -/
theorem C9_annual_budget_witness :
    ∑ im ∈ Finset.Icc 1 12,
        (runLoop 1).co2flx ((1 - 1) * 12 + im - 1) 0 0 * 1 *
          ((dayim.getD (im - 1) 0 : ℚ) * 86400) =
      E * 1e12 * 3.664 :=
  C9_annual_budget 1 1 0 0 (by norm_num) (by decide) (by decide) (by decide) (by decide)

/-- C10: the flux value depends only on the month, not the year: for any two
years iy1, iy2 in [1,250] and month im in [1,12], the flux at the
corresponding timesteps agrees at every grid cell. -/
theorem C10_year_independence (totarea : ℚ) (iy1 iy2 im la lo : ℕ)
    (ha1 : 1 ≤ iy1) (ha2 : iy1 ≤ 250) (hb1 : 1 ≤ iy2) (hb2 : iy2 ≤ 250)
    (hm1 : 1 ≤ im) (hm2 : im ≤ 12) (hla : la < nlat) (hlo : lo < nlon) :
    (runLoop totarea).co2flx ((iy1 - 1) * 12 + im - 1) la lo =
      (runLoop totarea).co2flx ((iy2 - 1) * 12 + im - 1) la lo :=
  (co2flx_closed totarea iy1 im la lo ha1 ha2 hm1 hm2).trans
    (co2flx_closed totarea iy2 im la lo hb1 hb2 hm1 hm2).symm

/-- Witness for C10 at totarea = 1, iy1 = 1, iy2 = 250, im = 1, cell (0, 0). -/
theorem C10_year_independence_witness :
    (runLoop 1).co2flx ((1 - 1) * 12 + 1 - 1) 0 0 =
      (runLoop 1).co2flx ((250 - 1) * 12 + 1 - 1) 0 0 :=
  C10_year_independence 1 1 250 1 0 0 (by decide) (by decide) (by decide) (by decide)
    (by decide) (by decide) (by decide) (by decide)

end TIPMIP
